import Mathlib

/-!
Shallow embedding of the linkedin-ads-cli asset-upload core
(`src/client.rs`, `src/asset_upload.rs`) and proofs about it.

Modelling conventions:
- `serde_json::Value` becomes the inductive `Json` below (numbers are
  modelled as `Int`, which covers all values occurring in this code).
- The JSON text parser (`serde_json::from_str`) is an external library,
  modelled as an oracle `parse : String → Option Json`.
- HTTP responses from the network are oracles: a status code, raw headers
  (a header value that is not valid UTF-8 is `none`), and a body text.
- u64 arithmetic is `Nat` with explicit `% 2^64` where the source wraps.
- Wall-clock time in the poller is `Nat` seconds; each request takes an
  oracle-specified duration and each sleep takes exactly 3 seconds.
-/

namespace LinkedinAdsCli

/-- Model of `serde_json::Value`. Objects are association lists; key order is
irrelevant to every property proved here. -/
inductive Json where
  | null
  | bool (b : Bool)
  | num (n : Int)
  | str (s : String)
  | arr (elems : List Json)
  | obj (fields : List (String × Json))

namespace Json

/-- `Value::get(key)` on an object: first field with the given key. -/
def get : Json → String → Option Json
  | .obj fields, key => (fields.find? (fun kv => kv.1 == key)).map (·.2)
  | _, _ => none

/-- `Value::as_str`. -/
def asStr : Json → Option String
  | .str s => some s
  | _ => none

/-- `Value::as_array`. -/
def asArr : Json → Option (List Json)
  | .arr xs => some xs
  | _ => none

/-- `Value::as_u64`: an integer in `[0, 2^64)`. -/
def asU64 : Json → Option Nat
  | .num n => if 0 ≤ n ∧ n < (2 : Int) ^ 64 then some n.toNat else none
  | _ => none

end Json

/-! ## Dispatcher (`src/client.rs`) -/

/-- `TunnelMode` from `client.rs`. -/
inductive TunnelMode where
  | auto
  | always
  | never
  deriving DecidableEq, Repr

/-- `TunnelMode::parse`. -/
def TunnelMode.parse (value : String) : Except String TunnelMode :=
  match value with
  | "auto" => .ok .auto
  | "always" => .ok .always
  | "never" => .ok .never
  | other => .error ("invalid --tunnel value " ++ other)

/-- `RestliClient::should_tunnel`, with URL assembly by the `url` crate
abstracted to the length of the fully assembled URL (base + path + encoded
query string), which is the only thing the source inspects
(`url.as_str().len()`). -/
def shouldTunnel (mode : TunnelMode) (method : String)
    (queryPairs : List (String × String)) (assembledUrlLen : Nat) : Bool :=
  if method ≠ "GET" ∧ method ≠ "DELETE" then false
  else
    match mode with
    | .never => false
    | .always => !queryPairs.isEmpty
    | .auto =>
        if queryPairs.isEmpty then false
        else decide (assembledUrlLen ≥ 3800)

/-- Rust `str::eq_ignore_ascii_case` (Lean's `Char.toLower` also lowers only
ASCII letters). -/
def eqIgnoreAsciiCase (a b : String) : Bool :=
  a.toList.map Char.toLower == b.toList.map Char.toLower

/-- Rust `str::trim`: strip leading and trailing whitespace characters. -/
def rustTrim (s : String) : String :=
  ⟨((s.toList.dropWhile Char.isWhitespace).reverse.dropWhile
      Char.isWhitespace).reverse⟩

/-- `BTreeMap::insert` on the association-list model: replace the value of an
existing key, otherwise append. -/
def insertHeader (acc : List (String × String)) (k v : String) :
    List (String × String) :=
  if acc.any (fun kv => kv.1 == k) then
    acc.map (fun kv => if kv.1 == k then (k, v) else kv)
  else
    acc ++ [(k, v)]

/-- One step of the response-header collection loop shared by `call` and
`put_bytes`: a value that is not valid UTF-8 (`none`) is skipped, a name that
ASCII case-insensitively equals `authorization` is skipped, everything else
is inserted into the map. -/
def collectStep (acc : List (String × String)) (nv : String × Option String) :
    List (String × String) :=
  match nv.2 with
  | none => acc
  | some v =>
      if eqIgnoreAsciiCase nv.1 "authorization" then acc
      else insertHeader acc nv.1 v

/-- The full response-header collection loop of `call` / `put_bytes`. -/
def collectHeaders (raw : List (String × Option String)) :
    List (String × String) :=
  raw.foldl collectStep []

/-- `RestliResponse` from `client.rs`. -/
structure RestliResponse where
  status : Nat
  headers : List (String × String)
  body : Json

/-- Body normalization shared by `call` and `put_bytes`: empty or
whitespace-only text becomes `Null`; otherwise parse as JSON, falling back to
the raw text as a JSON string on parse failure. `parse` is the
`serde_json::from_str` oracle. -/
def normalizeBody (parse : String → Option Json) (text : String) : Json :=
  if rustTrim text = "" then .null
  else
    match parse text with
    | some v => v
    | none => .str text

/-- `StatusCode::is_success`: 2xx. -/
def isSuccessStatus (status : Nat) : Bool :=
  decide (200 ≤ status ∧ status ≤ 299)

/-- The response-handling tail shared by `call` and `put_bytes`: collect
headers, normalize the body, then fail with `(status, body)` on any non-2xx
status, otherwise return the `RestliResponse`. -/
def handleResponse (parse : String → Option Json) (status : Nat)
    (rawHeaders : List (String × Option String)) (text : String) :
    Except (Nat × Json) RestliResponse :=
  let headers := collectHeaders rawHeaders
  let body := normalizeBody parse text
  if isSuccessStatus status then
    .ok { status := status, headers := headers, body := body }
  else
    .error (status, body)

/-- The body carried by a `handleResponse` result, success or error. -/
def resultBody : Except (Nat × Json) RestliResponse → Json
  | .ok r => r.body
  | .error e => e.2

/-- The headers of `put_bytes`' outgoing request, in the order `reqwest`
applies them: fixed content type and accept, then the bearer authorization
header only when `include_auth` is set, then the caller-supplied headers. -/
def putBytesRequestHeaders (accessToken : String) (includeAuth : Bool)
    (extra : List (String × String)) : List (String × String) :=
  [("Content-Type", "application/octet-stream"),
   ("Accept", "application/json")]
    ++ (if includeAuth then [("Authorization", "Bearer " ++ accessToken)] else [])
    ++ extra

/-! ## Asset upload orchestrator (`src/asset_upload.rs`) -/

/-- The two mechanism keys checked in `upload_video` / `extract_http_upload`. -/
def MECH_HTTP : String :=
  "com.linkedin.digitalmedia.uploading.MediaUploadHttpRequest"

def MECH_MULTIPART : String :=
  "com.linkedin.digitalmedia.uploading.MultipartUpload"

/-- `json_object_to_headers`: a missing or non-object value yields an empty
map; otherwise the string-valued fields are collected (the source wraps this
in `Result` but never fails). -/
def jsonObjectToHeaders : Option Json → List (String × String)
  | none => []
  | some (.obj fields) =>
      fields.foldl
        (fun out kv =>
          match kv.2 with
          | .str s => out ++ [(kv.1, s)]
          | _ => out)
        []
  | some _ => []

/-- `find_header_ci`: first header whose name ASCII case-insensitively equals
`name`. -/
def findHeaderCi (headers : List (String × String)) (name : String) :
    Option String :=
  (headers.find? (fun kv => eqIgnoreAsciiCase kv.1 name)).map (·.2)

/-- Rust `str::trim_matches(c)`: strip every leading and trailing occurrence
of `c`. -/
def trimMatches (c : Char) (s : String) : String :=
  let l := s.toList.dropWhile (· == c)
  ⟨(l.reverse.dropWhile (· == c)).reverse⟩

/-- One outgoing raw-byte PUT issued through `RestliClient::put_bytes`:
its URL, body bytes, extra headers, and the `include_auth` flag. -/
structure PutRequest where
  url : String
  bytes : List Nat
  headers : List (String × String)
  includeAuth : Bool
  deriving DecidableEq, Repr

/-- The multipart size threshold from `upload_video`: 200 MiB. -/
def MULTIPART_THRESHOLD : Nat := 200 * 1024 * 1024

/-- The `registerUploadRequest` JSON built by `upload_video` for a file of
`fileSize` bytes: the base payload, plus the `supportedUploadMechanism` hint
and the `fileSize` field exactly when the size exceeds the threshold. -/
def videoRegisterRequest (owner recipe : String) (fileSize : Nat) : Json :=
  let base : List (String × Json) :=
    [("owner", .str owner),
     ("recipes", .arr [.str recipe]),
     ("serviceRelationships",
      .arr [.obj [("identifier", .str "urn:li:userGeneratedContent"),
                  ("relationshipType", .str "OWNER")]])]
  let fields :=
    if fileSize > MULTIPART_THRESHOLD then
      base ++ [("supportedUploadMechanism", .arr [.str "MULTIPART_UPLOAD"]),
               ("fileSize", .num (fileSize : Int))]
    else base
  .obj [("registerUploadRequest", .obj fields)]

/-- The direct-HTTP branch of `upload_video` (lines 87–108): when the
registration `value` carries a `MediaUploadHttpRequest` mechanism, the whole
file is PUT to the extracted `uploadUrl` with the extracted headers and
`include_auth = false`. Returns `none` when the direct mechanism is absent
(the multipart branch is taken instead). -/
def videoDirectPut (value : Json) (fileBytes : List Nat) :
    Option (Except String PutRequest) :=
  match (value.get "uploadMechanism").bind (fun m => m.get MECH_HTTP) with
  | none => none
  | some http =>
      some
        (match (http.get "uploadUrl").bind Json.asStr with
         | none => .error "missing uploadUrl"
         | some url =>
             .ok { url := url, bytes := fileBytes,
                   headers := jsonObjectToHeaders (http.get "headers"),
                   includeAuth := false })

/-- `extract_http_upload` followed by the image PUT of `upload_image`
(lines 42–44): the whole file is PUT to the extracted `uploadUrl` with
`include_auth = true`. -/
def imageUploadPut (value : Json) (fileBytes : List Nat) :
    Except String PutRequest :=
  match (value.get "uploadMechanism").bind (fun m => m.get MECH_HTTP) with
  | none => .error "missing uploadMechanism.MediaUploadHttpRequest"
  | some http =>
      match (http.get "uploadUrl").bind Json.asStr with
      | none => .error "missing uploadUrl"
      | some url =>
          .ok { url := url, bytes := fileBytes,
                headers := jsonObjectToHeaders (http.get "headers"),
                includeAuth := true }

/-! ### Multipart parts -/

/-- `2^64`, the modulus of Rust `u64` arithmetic. -/
def U64 : Nat := 2 ^ 64

/-- One decoded entry of `partUploadRequests`. -/
structure PartReq where
  url : String
  firstByte : Nat
  lastByte : Nat
  headers : List (String × String)
  deriving DecidableEq, Repr

/-- Field extraction for one part (asset_upload.rs lines 134–148, 155):
`url` as a string, `byteRange.firstByte` / `byteRange.lastByte` via `as_u64`,
headers via `json_object_to_headers`. -/
def parsePart (p : Json) : Except String PartReq :=
  match (p.get "url").bind Json.asStr with
  | none => .error "missing part url"
  | some url =>
    match ((p.get "byteRange").bind (fun br => br.get "firstByte")).bind
        Json.asU64 with
    | none => .error "missing firstByte"
    | some first =>
      match ((p.get "byteRange").bind (fun br => br.get "lastByte")).bind
          Json.asU64 with
      | none => .error "missing lastByte"
      | some last =>
          .ok { url := url, firstByte := first, lastByte := last,
                headers := jsonObjectToHeaders (p.get "headers") }

/-- The buffer length `(last - first + 1) as usize` computed in wrapping
`u64` arithmetic (asset_upload.rs line 149). Both inputs come from `as_u64`
and are below `2^64`; the `usize` cast is the identity on a 64-bit target. -/
def partSize (first last : Nat) : Nat :=
  ((last + (U64 - first)) % U64 + 1) % U64

/-- `f.seek(SeekFrom::Start(first))` then `f.read_exact(&mut buf)` with a
buffer of `size` bytes: succeeds with exactly that slice of the file, or
fails when fewer than `size` bytes remain past offset `first` (a zero-size
read always succeeds, as `read_exact` on an empty buffer does). -/
def readPart (file : List Nat) (first size : Nat) : Except String (List Nat) :=
  if size ≤ file.length - first then .ok ((file.drop first).take size)
  else .error "read part"

/-- The JSON entry pushed onto `part_upload_responses` for one part. -/
def etagEntry (etag : String) : Json :=
  .obj [("headers", .obj [("ETag", .str etag)]), ("httpStatusCode", .num 200)]

/-- One iteration of the part loop (asset_upload.rs lines 133–165):
decode the part, read its byte range, PUT it (`putResult` is the server's
response to that PUT), recover the `ETag` header case-insensitively, strip
surrounding quotes, and build the finalize entry. -/
def processOnePart (file : List Nat)
    (putResult : Except String RestliResponse) (p : Json) :
    Except String (Json × PutRequest) :=
  match parsePart p with
  | .error e => .error e
  | .ok part =>
    match readPart file part.firstByte (partSize part.firstByte part.lastByte) with
    | .error e => .error e
    | .ok buf =>
      match putResult with
      | .error e => .error e
      | .ok resp =>
        match findHeaderCi resp.headers "etag" with
        | none => .error "missing ETag header for multipart part"
        | some etag =>
            .ok (etagEntry (trimMatches '"' etag),
                 { url := part.url, bytes := buf, headers := part.headers,
                   includeAuth := false })

/-- The whole part loop: parts are processed strictly in server-declared
order; `putResp i` is the response to the i-th part's PUT. Returns the
`partUploadResponses` entries and the PUT requests issued, in order; the
first failing part aborts the whole sequence. -/
def processParts (file : List Nat) (putResp : Nat → Except String RestliResponse) :
    List Json → Nat → Except String (List Json × List PutRequest)
  | [], _ => .ok ([], [])
  | p :: rest, i =>
    match processOnePart file (putResp i) p with
    | .error e => .error e
    | .ok (entry, req) =>
      match processParts file putResp rest (i + 1) with
      | .error e => .error e
      | .ok (entries, reqs) => .ok (entry :: entries, req :: reqs)

/-- The finalize request body (asset_upload.rs lines 167–173). -/
def completeBody (mediaArtifact metadata : String) (entries : List Json) : Json :=
  .obj [("completeMultipartUploadRequest",
         .obj [("mediaArtifact", .str mediaArtifact),
               ("metadata", .str metadata),
               ("partUploadResponses", .arr entries)])]

/-! ## Availability poller (`wait_for_asset_available`) -/

/-- `asset_id_from_urn`: the text after the last `:`, or `none` when the
string has no `:` (the caller then uses the handle verbatim). -/
def assetIdFromUrn (s : String) : Option String :=
  if s.toList.contains ':' then
    some ⟨(s.toList.reverse.takeWhile (fun c => c ≠ ':')).reverse⟩
  else none

/-- The ready test inside the polling loop: a `recipes` array is present and
every entry's `status` string equals `AVAILABLE`. -/
def allReady (body : Json) : Bool :=
  match (body.get "recipes").bind Json.asArr with
  | some recipes =>
      recipes.all (fun r =>
        match (r.get "status").bind Json.asStr with
        | some s => s == "AVAILABLE"
        | none => false)
  | none => false

/-- Outcome of the polling loop, with the number of status requests issued
and of 3-second sleeps performed; `timedOut` also records the elapsed time
(seconds) at the moment the timeout error is returned. -/
inductive PollOutcome where
  | ok (requests sleeps : Nat)
  | timedOut (elapsed requests sleeps : Nat)
  | fuelExhausted
  deriving DecidableEq, Repr

/-- `wait_for_asset_available`'s loop, with wall-clock time in whole seconds:
`resp i` is the body of the i-th status response, `reqTime i` how long that
request took. Each iteration issues the request, succeeds immediately if all
recipes are ready, fails with a timeout error if the elapsed time since the
first attempt has reached `timeout`, and otherwise sleeps exactly 3 seconds
and retries. `fuel` bounds the recursion and is consumed only by looping. -/
def pollLoop (resp : Nat → Json) (reqTime : Nat → Nat) (timeout : Nat) :
    Nat → Nat → Nat → PollOutcome
  | 0, _, _ => .fuelExhausted
  | fuel + 1, i, clock =>
      let clock := clock + reqTime i
      if allReady (resp i) then .ok (i + 1) i
      else if timeout ≤ clock then .timedOut clock (i + 1) i
      else pollLoop resp reqTime timeout fuel (i + 1) (clock + 3)

/-- Timeout the orchestrator passes to the poller: 300 seconds. -/
def DEFAULT_WAIT_TIMEOUT : Nat := 300

/-- Poll interval: 3 seconds. -/
def POLL_INTERVAL : Nat := 3

/-! ## Theorems -/

/-- C2: the tunneling decision: methods other than GET and DELETE never
tunnel regardless of mode; mode `never` never tunnels; mode `always` tunnels
iff the query set is non-empty; mode `auto` tunnels iff the query set is
non-empty and the assembled URL is at least 3800 characters long. -/
theorem c2_should_tunnel_decision (mode : TunnelMode) (method : String)
    (pairs : List (String × String)) (len : Nat) :
    ((method ≠ "GET" ∧ method ≠ "DELETE") →
      shouldTunnel mode method pairs len = false)
    ∧ shouldTunnel .never method pairs len = false
    ∧ ((method = "GET" ∨ method = "DELETE") →
        (shouldTunnel .always method pairs len = true ↔ pairs ≠ [])
        ∧ (shouldTunnel .auto method pairs len = true
            ↔ (pairs ≠ [] ∧ 3800 ≤ len))) := by
  refine ⟨fun h => ?_, ?_, fun hm => ?_⟩
  · simp [shouldTunnel, h.1, h.2]
  · unfold shouldTunnel
    split
    · rfl
    · rfl
  · have hcond : ¬(method ≠ "GET" ∧ method ≠ "DELETE") := by
      rcases hm with rfl | rfl <;> simp
    constructor
    · cases pairs <;> simp [shouldTunnel, hcond]
    · cases pairs <;> simp [shouldTunnel, hcond]

/-- Witness for C2: a 3799-character URL does not tunnel under `auto`, a
3800-character one does; `always` tunnels with one parameter; `never` and
non-GET/DELETE methods do not. -/
theorem c2_should_tunnel_decision_witness :
    shouldTunnel .auto "GET" [("a", "b")] 3799 = false
    ∧ shouldTunnel .auto "GET" [("a", "b")] 3800 = true
    ∧ shouldTunnel .always "GET" [("a", "b")] 0 = true
    ∧ shouldTunnel .never "DELETE" [("a", "b")] 5000 = false
    ∧ shouldTunnel .always "POST" [("a", "b")] 5000 = false := by
  have h1 := c2_should_tunnel_decision .auto "GET" [("a", "b")] 3799
  have h2 := c2_should_tunnel_decision .auto "GET" [("a", "b")] 3800
  have h3 := c2_should_tunnel_decision .always "GET" [("a", "b")] 0
  have h4 := c2_should_tunnel_decision .never "DELETE" [("a", "b")] 5000
  have h5 := c2_should_tunnel_decision .always "POST" [("a", "b")] 5000
  refine ⟨?_, ?_, ?_, h4.2.1, h5.1 (by decide)⟩
  · have hiff := (h1.2.2 (Or.inl rfl)).2
    cases hb : shouldTunnel .auto "GET" [("a", "b")] 3799
    · rfl
    · exact absurd (hiff.mp hb) (by decide)
  · exact (h2.2.2 (Or.inl rfl)).2.mpr (by decide)
  · exact (h3.2.2 (Or.inl rfl)).1.mpr (by decide)

/-- C4: the video registration payload carries the `MULTIPART_UPLOAD`
mechanism hint and the `fileSize` field exactly when the file size strictly
exceeds 200 MiB, and neither field otherwise. -/
theorem c4_multipart_registration (owner recipe : String) (fileSize : Nat) :
    (((videoRegisterRequest owner recipe fileSize).get
          "registerUploadRequest").bind
        (fun r => r.get "supportedUploadMechanism")
      = if fileSize > 200 * 1024 * 1024 then
          some (.arr [.str "MULTIPART_UPLOAD"]) else none)
    ∧ (((videoRegisterRequest owner recipe fileSize).get
          "registerUploadRequest").bind
        (fun r => r.get "fileSize")
      = if fileSize > 200 * 1024 * 1024 then
          some (.num (fileSize : Int)) else none) := by
  by_cases h : fileSize > MULTIPART_THRESHOLD
  · rw [if_pos (by exact h), if_pos (by exact h)]
    simp only [videoRegisterRequest, if_pos h]
    exact ⟨rfl, rfl⟩
  · rw [if_neg (by exact h), if_neg (by exact h)]
    simp only [videoRegisterRequest, if_neg h]
    exact ⟨rfl, rfl⟩

/-- C9: an empty `recipes` array counts as all-ready (the universal
quantifier over recipes is vacuously true), so the poller succeeds on the
first request with zero sleeps. -/
theorem c9_empty_recipes_ready (reqTime : Nat → Nat) (timeout fuel : Nat) :
    allReady (.obj [("recipes", .arr [])]) = true
    ∧ pollLoop (fun _ => .obj [("recipes", .arr [])]) reqTime timeout
        (fuel + 1) 0 0 = .ok 1 0 := by
  refine ⟨rfl, ?_⟩
  unfold pollLoop
  rfl

/-- C10: the part buffer length is computed as `lastByte - firstByte + 1` in
wrapping unsigned 64-bit arithmetic with no `last ≥ first` check: the result
is exact when `last ≥ first` (and the length is below `2^64`), and for
`last < first` the subtraction wraps modulo `2^64`; in every case the value
is congruent to `last - first + 1` modulo `2^64`, never a schema error. -/
theorem c10_part_size_wrapping (first last : Nat)
    (hf : first < U64) (hl : last < U64) :
    (first ≤ last → last - first + 1 < U64 →
      partSize first last = last - first + 1)
    ∧ (last < first →
        partSize first last = (U64 - (first - last) + 1) % U64)
    ∧ Int.ModEq (2 ^ 64) (partSize first last) ((last : Int) - first + 1) := by
  have hU : U64 = 18446744073709551616 := by norm_num [U64]
  refine ⟨fun hle hlt => ?_, fun hgt => ?_, ?_⟩
  · simp only [partSize, hU] at *
    omega
  · simp only [partSize, hU] at *
    omega
  · show (↑(partSize first last) : Int) % 2 ^ 64
      = ((last : Int) - first + 1) % 2 ^ 64
    have hp : (2 : Int) ^ 64 = 18446744073709551616 := by norm_num
    simp only [partSize, hU, hp] at *
    push_cast [Nat.cast_sub (by omega : first ≤ 18446744073709551616)]
    omega

/-- Witness for C10: an in-order range is exact, a reversed range wraps. -/
theorem c10_part_size_wrapping_witness :
    partSize 3 5 = 3 ∧ partSize 5 3 = (U64 - 2 + 1) % U64 := by
  have h1 := c10_part_size_wrapping 3 5 (by norm_num [U64]) (by norm_num [U64])
  have h2 := c10_part_size_wrapping 5 3 (by norm_num [U64]) (by norm_num [U64])
  exact ⟨h1.1 (by norm_num) (by norm_num [U64]), h2.2.1 (by norm_num)⟩

/-- Helper: the body carried by a `handleResponse` result is the normalized
body, on the success path and on the error path alike. -/
lemma resultBody_handleResponse (parse : String → Option Json) (status : Nat)
    (raw : List (String × Option String)) (text : String) :
    resultBody (handleResponse parse status raw text)
      = normalizeBody parse text := by
  unfold handleResponse
  by_cases hs : isSuccessStatus status = true
  · simp [hs, resultBody]
  · simp [hs, resultBody]

/-- C5: `call` and `put_bytes` succeed exactly on 2xx statuses — a non-2xx
status always becomes an error carrying the status and normalized body — and
the body carried by the result is `Null` for a whitespace-only body, the
parsed JSON when parsing succeeds, and the raw text as a JSON string when
parsing fails, never a parse error. -/
theorem c5_response_normalization (parse : String → Option Json) (status : Nat)
    (raw : List (String × Option String)) (text : String) :
    ((∃ r, handleResponse parse status raw text = .ok r)
      ↔ (200 ≤ status ∧ status ≤ 299))
    ∧ (rustTrim text = "" →
        resultBody (handleResponse parse status raw text) = .null)
    ∧ (∀ j, rustTrim text ≠ "" → parse text = some j →
        resultBody (handleResponse parse status raw text) = j)
    ∧ (rustTrim text ≠ "" → parse text = none →
        resultBody (handleResponse parse status raw text) = .str text)
    ∧ (¬(200 ≤ status ∧ status ≤ 299) →
        handleResponse parse status raw text
          = .error (status, normalizeBody parse text)) := by
  have hiff : isSuccessStatus status = true ↔ (200 ≤ status ∧ status ≤ 299) := by
    simp [isSuccessStatus]
  have hbody := resultBody_handleResponse parse status raw text
  refine ⟨?_, ?_, ?_, ?_, ?_⟩
  · constructor
    · rintro ⟨r, hr⟩
      by_cases hs : isSuccessStatus status = true
      · exact hiff.mp hs
      · unfold handleResponse at hr
        simp [hs] at hr
    · intro h
      refine ⟨⟨status, collectHeaders raw, normalizeBody parse text⟩, ?_⟩
      unfold handleResponse
      simp [hiff.mpr h]
  · intro h
    rw [hbody]
    simp [normalizeBody, h]
  · intro j hne hp
    rw [hbody]
    simp [normalizeBody, hne, hp]
  · intro hne hp
    rw [hbody]
    simp [normalizeBody, hne, hp]
  · intro h
    have hs : ¬ isSuccessStatus status = true := fun hb => h (hiff.mp hb)
    unfold handleResponse
    simp [hs]

/-- Witness for C5: a whitespace-only 404 body becomes a `(404, Null)` error;
a non-JSON 200 body becomes a success whose body is the raw string. -/
theorem c5_response_normalization_witness :
    handleResponse (fun _ => none) 404 [] " " = .error (404, .null)
    ∧ resultBody (handleResponse (fun _ => none) 200 [] "oops") = .str "oops" := by
  have h1 := c5_response_normalization (fun _ => none) 404 [] " "
  have h2 := c5_response_normalization (fun _ => none) 200 [] "oops"
  constructor
  · have he := h1.2.2.2.2 (by decide)
    rw [he]
    rfl
  · exact h2.2.2.2.1 (by decide) rfl

/-- Helper: membership in `insertHeader` comes from the old map or is the
newly inserted pair. -/
lemma insertHeader_mem {acc : List (String × String)} {k v a b : String}
    (h : (a, b) ∈ insertHeader acc k v) : (a, b) ∈ acc ∨ (a, b) = (k, v) := by
  unfold insertHeader at h
  split at h
  · obtain ⟨kv, hkv, heq⟩ := List.mem_map.mp h
    by_cases hk : kv.1 == k
    · right
      rw [if_pos hk] at heq
      exact heq.symm
    · left
      rw [if_neg hk] at heq
      exact heq ▸ hkv
  · rcases List.mem_append.mp h with h | h
    · left; exact h
    · right
      simpa using h

/-- Helper: every pair in the folded header map either was already in the
accumulator or comes from a UTF-8-valid, non-authorization raw header. -/
lemma collectStep_foldl_mem :
    ∀ (raw : List (String × Option String)) (acc : List (String × String))
      (a b : String), (a, b) ∈ raw.foldl collectStep acc →
      (a, b) ∈ acc
      ∨ ((a, some b) ∈ raw ∧ eqIgnoreAsciiCase a "authorization" = false) := by
  intro raw
  induction raw with
  | nil => intro acc a b h; exact Or.inl h
  | cons nv rest ih =>
    intro acc a b h
    rw [List.foldl_cons] at h
    rcases ih (collectStep acc nv) a b h with h' | h'
    · unfold collectStep at h'
      split at h'
      · exact Or.inl h'
      · rename_i v hv
        split at h'
        · exact Or.inl h'
        · rename_i hauth
          rcases insertHeader_mem h' with h'' | h''
          · exact Or.inl h''
          · refine Or.inr ⟨?_, ?_⟩
            · rw [Prod.mk.injEq] at h''
              rw [h''.1, h''.2, ← hv]
              exact List.mem_cons_self _ _
            · rw [Prod.mk.injEq] at h''
              rw [h''.1]
              exact Bool.eq_false_iff.mpr hauth
    · exact Or.inr ⟨List.mem_cons_of_mem _ h'.1, h'.2⟩

/-- Helper: every pair exposed by `collectHeaders` comes from a UTF-8-valid
raw header whose name is not (case-insensitively) `authorization`. -/
lemma collectHeaders_mem {raw : List (String × Option String)} {a b : String}
    (h : (a, b) ∈ collectHeaders raw) :
    (a, some b) ∈ raw ∧ eqIgnoreAsciiCase a "authorization" = false := by
  rcases collectStep_foldl_mem raw [] a b h with h' | h'
  · exact absurd h' (List.not_mem_nil _)
  · exact h'

/-- C8: a successful `call` / `put_bytes` response never exposes a header
whose name case-insensitively equals `authorization`, every exposed header
comes from a UTF-8-valid raw header value, and raw headers with non-UTF-8
values are silently dropped rather than making the call fail (a 2xx status
always yields a response, whatever the raw header list contains). -/
theorem c8_header_sanitization (parse : String → Option Json) (status : Nat)
    (raw : List (String × Option String)) (text : String) :
    (∀ r, handleResponse parse status raw text = .ok r →
      ∀ k v, (k, v) ∈ r.headers →
        eqIgnoreAsciiCase k "authorization" = false ∧ (k, some v) ∈ raw)
    ∧ (isSuccessStatus status = true →
        ∃ r, handleResponse parse status raw text = .ok r) := by
  constructor
  · intro r hr k v hkv
    have hh : r.headers = collectHeaders raw := by
      unfold handleResponse at hr
      split at hr
      · cases hr
        rfl
      · cases hr
    rw [hh] at hkv
    exact ⟨(collectHeaders_mem hkv).2, (collectHeaders_mem hkv).1⟩
  · intro hs
    refine ⟨⟨status, collectHeaders raw, normalizeBody parse text⟩, ?_⟩
    unfold handleResponse
    simp [hs]

/-- Witness for C8: a raw header list carrying an `Authorization` header and
a non-UTF-8 value still yields a successful response whose map keeps only
the `etag` entry. -/
theorem c8_header_sanitization_witness :
    ∃ r, handleResponse (fun _ => none) 200
      [("etag", some "x"), ("Authorization", some "s"), ("bad", none)] ""
      = .ok r :=
  (c8_header_sanitization (fun _ => none) 200
    [("etag", some "x"), ("Authorization", some "s"), ("bad", none)] "").2 rfl

/-- Helper: when no response ever reports all recipes ready, the polling
loop terminates in a timeout error (never fuel exhaustion) once the fuel
exceeds the remaining time, and the elapsed time at the error is at least
the timeout. -/
lemma pollLoop_never_ready (resp : Nat → Json) (reqTime : Nat → Nat)
    (timeout : Nat) (h : ∀ n, allReady (resp n) = false) :
    ∀ fuel i clock, timeout < clock + fuel → 0 < fuel →
      ∃ e j, pollLoop resp reqTime timeout fuel i clock
          = .timedOut e (j + 1) j ∧ timeout ≤ e := by
  intro fuel
  induction fuel with
  | zero => intro i clock h1 h2; omega
  | succ fuel ih =>
    intro i clock h1 _
    by_cases hto : timeout ≤ clock + reqTime i
    · refine ⟨clock + reqTime i, i, ?_, hto⟩
      unfold pollLoop
      simp [h i, hto]
    · have h2' : 0 < fuel := by omega
      obtain ⟨e, j, hpoll, he⟩ :=
        ih (i + 1) (clock + reqTime i + 3) (by omega) h2'
      refine ⟨e, j, ?_, he⟩
      unfold pollLoop
      simp only [h i, Bool.false_eq_true, if_false]
      rw [if_neg hto]
      exact hpoll

/-- C7: when the first status response reports every recipe ready, the
poller succeeds after exactly one request and zero sleeps; when no response
ever reports all recipes ready, it returns a timeout error whose elapsed
time (measured from the first attempt) is at least the configured timeout,
having slept between consecutive attempts (`j` sleeps of 3 seconds for
`j + 1` requests, as built into `pollLoop`). -/
theorem c7_polling_behavior (resp : Nat → Json) (reqTime : Nat → Nat)
    (timeout fuel : Nat) :
    (allReady (resp 0) = true →
      pollLoop resp reqTime timeout (fuel + 1) 0 0 = .ok 1 0)
    ∧ ((∀ n, allReady (resp n) = false) → timeout < fuel →
        ∃ e j, pollLoop resp reqTime timeout fuel 0 0
            = .timedOut e (j + 1) j ∧ timeout ≤ e) := by
  constructor
  · intro h
    unfold pollLoop
    simp [h]
  · intro h hf
    exact pollLoop_never_ready resp reqTime timeout h fuel 0 0 (by omega)
      (by omega)

/-- Witness for C7: an all-ready first response returns success at once; a
never-ready sequence times out at or after the 4-second deadline. -/
theorem c7_polling_behavior_witness :
    pollLoop
        (fun _ => Json.obj [("recipes",
          Json.arr [Json.obj [("status", Json.str "AVAILABLE")]])])
        (fun _ => 1) 300 10 0 0 = .ok 1 0
    ∧ ∃ e j, pollLoop (fun _ => Json.null) (fun _ => 0) 4 5 0 0
        = .timedOut e (j + 1) j ∧ 4 ≤ e := by
  constructor
  · exact (c7_polling_behavior _ (fun _ => 1) 300 9).1 rfl
  · exact (c7_polling_behavior (fun _ => Json.null) (fun _ => 0) 4 5).2
      (fun n => rfl) (by norm_num)

/-- A concrete registration `value` carrying a direct-HTTP upload mechanism,
as in the spec's 5 MB video scenario. -/
def c1RegisterValue : Json :=
  .obj [("uploadMechanism",
         .obj [(MECH_HTTP,
                .obj [("uploadUrl", .str "https://up.example/abc"),
                      ("headers",
                       .obj [("Authorization-Hint", .str "x")])])]),
        ("asset", .str "urn:li:digitalmediaAsset:C5405")]

/-- C1 counterexample: on a registration response with a direct-HTTP
mechanism, the video path issues its PUT with `include_auth = false` — the
bearer header is NOT attached — while the image path on the same response
passes `include_auth = true`; so the claim that the video PUT carries the
authorization header like the image path fails at this input. -/
theorem c1_counterexample :
    videoDirectPut c1RegisterValue [7, 8]
      = some (.ok { url := "https://up.example/abc", bytes := [7, 8],
                    headers := [("Authorization-Hint", "x")],
                    includeAuth := false })
    ∧ imageUploadPut c1RegisterValue [7, 8]
      = .ok { url := "https://up.example/abc", bytes := [7, 8],
              headers := [("Authorization-Hint", "x")],
              includeAuth := true }
    ∧ ¬ (∀ pr, videoDirectPut c1RegisterValue [7, 8] = some (.ok pr) →
          pr.includeAuth = true) := by
  refine ⟨rfl, rfl, fun hall => ?_⟩
  exact Bool.false_ne_true
    (hall { url := "https://up.example/abc", bytes := [7, 8],
            headers := [("Authorization-Hint", "x")],
            includeAuth := false } rfl)

/-- C1 amended: for every registration response carrying a direct-HTTP
mechanism, `upload_video` PUTs the whole file to the returned `uploadUrl`
with the returned headers but with `include_auth = false`, so `put_bytes`
attaches no bearer authorization header — unlike the image path, which PUTs
the same URL with `include_auth = true`. -/
theorem c1_video_direct_put_no_auth (value http : Json) (fileBytes : List Nat)
    (url : String)
    (hmech : (value.get "uploadMechanism").bind (fun m => m.get MECH_HTTP)
      = some http)
    (hurl : (http.get "uploadUrl").bind Json.asStr = some url) :
    videoDirectPut value fileBytes
      = some (.ok { url := url, bytes := fileBytes,
                    headers := jsonObjectToHeaders (http.get "headers"),
                    includeAuth := false })
    ∧ (∀ token extra, putBytesRequestHeaders token false extra
        = [("Content-Type", "application/octet-stream"),
           ("Accept", "application/json")] ++ extra)
    ∧ imageUploadPut value fileBytes
      = .ok { url := url, bytes := fileBytes,
              headers := jsonObjectToHeaders (http.get "headers"),
              includeAuth := true } := by
  refine ⟨?_, fun token extra => rfl, ?_⟩
  · simp only [videoDirectPut, hmech, hurl]
  · simp only [imageUploadPut, hmech, hurl]

/-- Witness for C1's amended theorem, at the concrete direct-mechanism
registration response. -/
theorem c1_video_direct_put_no_auth_witness :
    videoDirectPut c1RegisterValue [7]
      = some (.ok { url := "https://up.example/abc", bytes := [7],
                    headers := [("Authorization-Hint", "x")],
                    includeAuth := false }) :=
  (c1_video_direct_put_no_auth c1RegisterValue
    (.obj [("uploadUrl", .str "https://up.example/abc"),
           ("headers", .obj [("Authorization-Hint", .str "x")])])
    [7] "https://up.example/abc" rfl rfl).1

/-- Helper: `as_u64` only produces values below `2^64`. -/
lemma asU64_lt {j : Json} {n : Nat} (h : j.asU64 = some n) : n < U64 := by
  unfold Json.asU64 at h
  split at h
  · rename_i m
    split at h
    · rename_i hc
      injection h with h'
      subst h'
      have hU : U64 = 18446744073709551616 := by norm_num [U64]
      norm_num at hc
      omega
    · exact absurd h (by simp)
  · exact absurd h (by simp)

/-- Helper: a successfully parsed part has both byte bounds below `2^64`. -/
lemma parsePart_bounds {p : Json} {part : PartReq}
    (h : parsePart p = .ok part) :
    part.firstByte < U64 ∧ part.lastByte < U64 := by
  unfold parsePart at h
  split at h
  · exact absurd h (by simp)
  · split at h
    · exact absurd h (by simp)
    · rename_i first hfirst
      split at h
      · exact absurd h (by simp)
      · rename_i last hlast
        injection h with h'
        subst h'
        obtain ⟨_, _, hf⟩ := Option.bind_eq_some.mp hfirst
        obtain ⟨_, _, hl⟩ := Option.bind_eq_some.mp hlast
        exact ⟨asU64_lt hf, asU64_lt hl⟩

/-- Helper: the wrapping buffer-length computation is exact for an in-order
byte range whose length fits in `u64`. -/
lemma partSize_exact {first last : Nat} (hf : first < U64)
    (hle : first ≤ last) (hl : last < U64)
    (hsz : last - first + 1 < U64) :
    partSize first last = last - first + 1 := by
  have hU : U64 = 18446744073709551616 := by norm_num [U64]
  simp only [partSize, hU] at *
  omega

/-- Helper: anatomy of a successful single-part iteration: the part parsed,
the byte range was read in full, the PUT request used the part's URL and
headers without authorization, the PUT response contained an ETag, and the
finalize entry records that ETag with quotes stripped. -/
lemma processOnePart_ok_spec {file : List Nat}
    {putResult : Except String RestliResponse} {p entry : Json}
    {req : PutRequest}
    (h : processOnePart file putResult p = .ok (entry, req)) :
    ∃ part resp etag, parsePart p = .ok part
      ∧ readPart file part.firstByte (partSize part.firstByte part.lastByte)
          = .ok req.bytes
      ∧ req.url = part.url ∧ req.headers = part.headers
      ∧ req.includeAuth = false
      ∧ putResult = .ok resp
      ∧ findHeaderCi resp.headers "etag" = some etag
      ∧ entry = etagEntry (trimMatches '"' etag) := by
  unfold processOnePart at h
  cases hpart : parsePart p with
  | error e => simp only [hpart] at h; exact Except.noConfusion h
  | ok part =>
    cases hbuf : readPart file part.firstByte
        (partSize part.firstByte part.lastByte) with
    | error e => simp only [hpart, hbuf] at h; exact Except.noConfusion h
    | ok buf =>
      cases putResult with
      | error e => simp only [hpart, hbuf] at h; exact Except.noConfusion h
      | ok resp =>
        cases hetag : findHeaderCi resp.headers "etag" with
        | none => simp only [hpart, hbuf, hetag] at h; exact Except.noConfusion h
        | some etag =>
          simp only [hpart, hbuf, hetag] at h
          injection h with h'
          injection h' with he hr
          subst he
          subst hr
          exact ⟨part, resp, etag, rfl, hbuf, rfl, rfl, rfl, rfl, hetag, rfl⟩

/-- Helper: a successful part loop produces one finalize entry and one PUT
request per input part, in order, each produced by that part's own iteration
against its own indexed PUT response. -/
lemma processParts_ok_spec {file : List Nat}
    {putResp : Nat → Except String RestliResponse} :
    ∀ {parts : List Json} {i : Nat} {entries : List Json}
      {reqs : List PutRequest},
      processParts file putResp parts i = .ok (entries, reqs) →
      entries.length = parts.length ∧ reqs.length = parts.length
      ∧ (∀ j, j < parts.length → ∃ p entry req,
          parts.get? j = some p ∧ entries.get? j = some entry
          ∧ reqs.get? j = some req
          ∧ processOnePart file (putResp (i + j)) p = .ok (entry, req)) := by
  intro parts
  induction parts with
  | nil =>
    intro i entries reqs h
    unfold processParts at h
    injection h with h'
    injection h' with he hr
    subst he
    subst hr
    exact ⟨rfl, rfl, fun j hj => absurd hj (by simp)⟩
  | cons p rest ih =>
    intro i entries reqs h
    unfold processParts at h
    cases hone : processOnePart file (putResp i) p with
    | error e => simp only [hone] at h; exact Except.noConfusion h
    | ok pr =>
      obtain ⟨entry, req⟩ := pr
      cases hrest : processParts file putResp rest (i + 1) with
      | error e => simp only [hone, hrest] at h; exact Except.noConfusion h
      | ok pr' =>
        obtain ⟨entries', reqs'⟩ := pr'
        simp only [hone, hrest] at h
        injection h with h'
        injection h' with he hr
        subst he
        subst hr
        obtain ⟨hlen, hlenr, hpt⟩ := ih hrest
        refine ⟨by simp [hlen], by simp [hlenr], fun j hj => ?_⟩
        match j with
        | 0 =>
          refine ⟨p, entry, req, rfl, rfl, rfl, ?_⟩
          rw [Nat.add_zero]
          exact hone
        | j' + 1 =>
          obtain ⟨p', entry', req', hp', he', hr', hone'⟩ :=
            hpt j' (by simpa using hj)
          refine ⟨p', entry', req', by simpa using hp', by simpa using he',
            by simpa using hr', ?_⟩
          have harr : i + (j' + 1) = (i + 1) + j' := by omega
          rw [harr]
          exact hone'

/-- C3: a successful multipart run over N server-declared parts yields
exactly N finalize entries, in server order; the finalize body's
`partUploadResponses` is exactly that list; and the j-th entry is built from
the ETag recovered from the j-th part's own PUT response, quotes stripped,
with the synthetic `httpStatusCode 200` (carried by `etagEntry`). -/
theorem c3_finalize_payload (file : List Nat)
    (putResp : Nat → Except String RestliResponse) (parts entries : List Json)
    (reqs : List PutRequest) (ma md : String)
    (h : processParts file putResp parts 0 = .ok (entries, reqs)) :
    entries.length = parts.length
    ∧ ((completeBody ma md entries).get "completeMultipartUploadRequest").bind
        (fun r => r.get "partUploadResponses") = some (.arr entries)
    ∧ ∀ j, j < parts.length →
        ∃ resp etag, putResp j = .ok resp
          ∧ findHeaderCi resp.headers "etag" = some etag
          ∧ entries.get? j = some (etagEntry (trimMatches '"' etag)) := by
  obtain ⟨hlen, _, hpt⟩ := processParts_ok_spec h
  refine ⟨hlen, rfl, fun j hj => ?_⟩
  obtain ⟨p, entry, req, _, hentry, _, hone⟩ := hpt j hj
  obtain ⟨part, resp, etag, _, _, _, _, _, hresp, hetag, he⟩ :=
    processOnePart_ok_spec hone
  refine ⟨resp, etag, ?_, hetag, ?_⟩
  · rw [← Nat.zero_add j]
    exact hresp
  · rw [← he]
    exact hentry

/-- The two-part scenario used to witness C3: byte ranges [0,1] and [2,3]
over a 4-byte file, with quoted ETags `"e1"` / `"e2"` in the PUT responses. -/
def c3Parts : List Json :=
  [.obj [("url", .str "https://part/1"),
         ("byteRange", .obj [("firstByte", .num 0), ("lastByte", .num 1)])],
   .obj [("url", .str "https://part/2"),
         ("byteRange", .obj [("firstByte", .num 2), ("lastByte", .num 3)])]]

def c3PutResp : Nat → Except String RestliResponse :=
  fun i =>
    .ok { status := 200,
          headers := [("ETag", if i = 0 then "\"e1\"" else "\"e2\"")],
          body := .null }

/-- Witness for C3: the finalize payload of the concrete two-part run has
exactly two entries, in order, with the quotes stripped from each ETag. -/
theorem c3_finalize_payload_witness :
    ([etagEntry "e1", etagEntry "e2"] : List Json).length = c3Parts.length
    ∧ ((completeBody "ma" "md" [etagEntry "e1", etagEntry "e2"]).get
          "completeMultipartUploadRequest").bind
        (fun r => r.get "partUploadResponses")
      = some (.arr [etagEntry "e1", etagEntry "e2"]) := by
  have h := c3_finalize_payload [1, 2, 3, 4] c3PutResp c3Parts
    [etagEntry "e1", etagEntry "e2"]
    [{ url := "https://part/1", bytes := [1, 2], headers := [],
       includeAuth := false },
     { url := "https://part/2", bytes := [3, 4], headers := [],
       includeAuth := false }]
    "ma" "md" rfl
  exact ⟨h.1, h.2.1⟩

/-- C6: for a part with an in-order byte range, a successful iteration PUTs
exactly the `last - first + 1` bytes of the file starting at offset `first`;
when the file ends before the range is satisfied, the iteration fails, and
the whole part loop can then never succeed. -/
theorem c6_byte_range_read (file : List Nat)
    (putResp : Nat → Except String RestliResponse) (p : Json) (part : PartReq)
    (hp : parsePart p = .ok part) (hle : part.firstByte ≤ part.lastByte)
    (hsz : part.lastByte - part.firstByte + 1 < U64) :
    (∀ res entry req, processOnePart file res p = .ok (entry, req) →
      req.bytes = (file.drop part.firstByte).take
          (part.lastByte - part.firstByte + 1)
      ∧ req.bytes.length = part.lastByte - part.firstByte + 1
      ∧ req.url = part.url
      ∧ part.firstByte + (part.lastByte - part.firstByte + 1) ≤ file.length)
    ∧ (file.length < part.firstByte + (part.lastByte - part.firstByte + 1) →
        ∀ res, ∃ e, processOnePart file res p = .error e)
    ∧ (∀ parts i j out,
        parts.get? j = some p →
        file.length < part.firstByte + (part.lastByte - part.firstByte + 1) →
        processParts file putResp parts i ≠ .ok out) := by
  have hb := parsePart_bounds hp
  have hps : partSize part.firstByte part.lastByte
      = part.lastByte - part.firstByte + 1 :=
    partSize_exact hb.1 hle hb.2 hsz
  have hok : ∀ res entry req, processOnePart file res p = .ok (entry, req) →
      req.bytes = (file.drop part.firstByte).take
          (part.lastByte - part.firstByte + 1)
      ∧ req.bytes.length = part.lastByte - part.firstByte + 1
      ∧ req.url = part.url
      ∧ part.firstByte + (part.lastByte - part.firstByte + 1)
          ≤ file.length := by
    intro res entry req h
    obtain ⟨part', _, _, hp', hbuf, hu, _, _, _, _, _⟩ :=
      processOnePart_ok_spec h
    rw [hp] at hp'
    injection hp' with hpe
    subst hpe
    rw [hps] at hbuf
    unfold readPart at hbuf
    split at hbuf
    · rename_i hcond
      injection hbuf with hbe
      refine ⟨hbe.symm, ?_, hu, by omega⟩
      rw [← hbe, List.length_take, List.length_drop]
      omega
    · exact absurd hbuf (by simp)
  refine ⟨hok, ?_, ?_⟩
  · intro hshort res
    unfold processOnePart
    simp only [hp]
    have hrd : readPart file part.firstByte
        (partSize part.firstByte part.lastByte) = .error "read part" := by
      rw [hps]
      unfold readPart
      rw [if_neg (by omega)]
    simp only [hrd]
    exact ⟨_, rfl⟩
  · intro parts i j out hmem hshort hokp
    obtain ⟨_, _, hpt⟩ := processParts_ok_spec hokp
    have hj : j < parts.length := by
      by_contra hge
      rw [List.get?_eq_none.mpr (by omega)] at hmem
      exact Option.noConfusion hmem
    obtain ⟨p', entry, req, hp2, _, _, hone⟩ := hpt j hj
    rw [hmem] at hp2
    injection hp2 with hpe
    subst hpe
    have := (hok _ entry req hone).2.2.2
    omega

/-- The part JSON used to witness C6: byte range [1,2]. -/
def c6PartJson : Json :=
  .obj [("url", .str "u"),
        ("byteRange", .obj [("firstByte", .num 1), ("lastByte", .num 2)])]

/-- Witness for C6: over file `[5,6,7]` the part `[1,2]` PUTs exactly
`[6,7]`; over the 1-byte file `[5]` the same part fails. -/
theorem c6_byte_range_read_witness :
    (([6, 7] : List Nat) = (([5, 6, 7] : List Nat).drop 1).take (2 - 1 + 1)
      ∧ ([6, 7] : List Nat).length = 2 - 1 + 1)
    ∧ ∃ e, processOnePart [5]
        (.ok { status := 200, headers := [("ETag", "\"e\"")], body := .null })
        c6PartJson = .error e := by
  have h := c6_byte_range_read [5, 6, 7]
    (fun _ => .ok { status := 200, headers := [("ETag", "\"e\"")],
                    body := .null })
    c6PartJson { url := "u", firstByte := 1, lastByte := 2, headers := [] }
    rfl (by decide) (by decide)
  have h2 := c6_byte_range_read [5]
    (fun _ => .ok { status := 200, headers := [("ETag", "\"e\"")],
                    body := .null })
    c6PartJson { url := "u", firstByte := 1, lastByte := 2, headers := [] }
    rfl (by decide) (by decide)
  have h1 := h.1
    (.ok { status := 200, headers := [("ETag", "\"e\"")], body := .null })
    (etagEntry "e")
    { url := "u", bytes := [6, 7], headers := [], includeAuth := false } rfl
  exact ⟨⟨h1.1, h1.2.1⟩,
    h2.2.1 (by decide)
      (.ok { status := 200, headers := [("ETag", "\"e\"")], body := .null })⟩

end LinkedinAdsCli
